import Mathlib

/-!
Verification of the DDBOT persistent-state layer: the buntdb transaction
coordinator (`RWCoverTx` / `RCoverTx` / `InitBuntDB` / `NamedKey`) and the
bilibili `StateManager` repository built on it
(`src/lsp/bilibili/stateManager.go`).

The coordinator's own source is not among the provided files (only its test
file and its callers are), so the coordinator is modelled from the spec
(sections 4.1, 4.2, 6 and 7): a process-wide engine state holding a string
key-value store, a read-only / read-write cover discipline with per-chain
transaction reuse, commit-or-rollback at the outermost read-write cover only,
and a NotWritable failure when a write is attempted inside a read-only chain.
The repository functions are translated directly from `stateManager.go`.
-/

namespace DDBOT

/-- Error values of the storage layer.  `notInitialized`, `alreadyInitialized`
and `notWritable` come from the engine lifecycle and write-escalation rules;
`notFound` is buntdb's missing-key error; `rollback` is the caller-requested
rollback sentinel (`ErrRollback`); `persistFail` is an engine persistence
failure surfacing at commit time (spec section 7, e.g. disk full);
`engineFault` is a non-NotFound read fault injected through the fault oracle;
`generic msg` models `errors.New(msg)`. -/
inductive Err where
  | notInitialized
  | alreadyInitialized
  | notWritable
  | notFound
  | rollback
  | persistFail
  | engineFault
  | generic (msg : String)
deriving DecidableEq, Repr

/-- One stored record: its value string and its optional TTL
(`time.Duration` in nanoseconds; `none` means no expiry). -/
structure Entry where
  value : String
  ttl : Option Int
deriving DecidableEq, Repr

/-- Association-list lookup on the raw store data. -/
def lookupL : List (String × Entry) → String → Option Entry
  | [], _ => none
  | (k', e) :: rest, k => if k' = k then some e else lookupL rest k

/-- Remove every binding of a key from the raw store data. -/
def delL : List (String × Entry) → String → List (String × Entry)
  | [], _ => []
  | (k', e) :: rest, k => if k' = k then delL rest k else (k', e) :: delL rest k

/-- The flat key space of the embedded ordered KV engine.  `faulty` is a
fault-injection oracle: point reads of a key listed there fail with a
non-NotFound engine error (spec section 7 requires such faults to be
distinguishable from NotFound). -/
structure Store where
  data : List (String × Entry)
  faulty : List String
deriving DecidableEq, Repr

def Store.lookup (db : Store) (k : String) : Option Entry :=
  lookupL db.data k

/-- `tx.Set`: upsert a key with an optional TTL. -/
def Store.set (db : Store) (k v : String) (ttl : Option Int) : Store :=
  { db with data := (k, ⟨v, ttl⟩) :: delL db.data k }

/-- `tx.Get`: point read; absent keys fail with NotFound, keys covered by the
fault oracle fail with a non-NotFound engine fault. -/
def Store.get (db : Store) (k : String) : Except Err String :=
  if k ∈ db.faulty then .error .engineFault
  else match db.lookup k with
    | some e => .ok e.value
    | none => .error .notFound

/-- `tx.Delete`: remove a key, failing with NotFound when it is absent. -/
def Store.delete (db : Store) (k : String) : Store × Option Err :=
  match db.lookup k with
  | some _ => ({ db with data := delL db.data k }, none)
  | none => (db, some .notFound)

/-- Process-wide engine state: whether `InitBuntDB` has succeeded, whether the
next commit will persist successfully (`commitOk = false` injects the
commit-time persistence failure of spec section 7), and the store. -/
structure DBState where
  initialized : Bool
  commitOk : Bool
  db : Store
deriving DecidableEq, Repr

/-- Access mode of the transaction currently open on an execution chain. -/
inductive Mode where
  | read
  | readWrite
deriving DecidableEq, Repr

/-- Deep embedding of a transaction callback body, as exercised by the
coordinator tests: `set`/`del`/`get` are the buntdb operations whose error
(if any) the callback returns, `ret e` is an explicit `return e`, `seq` is
sequencing with early return on error, and `rw`/`rd` are nested
`RWCoverTx`/`RCoverTx` calls on the same execution chain. -/
inductive Act where
  | set (k v : String) (ttl : Option Int)
  | del (k : String)
  | get (k : String)
  | ret (e : Err)
  | seq (a b : Act)
  | rw (body : Act)
  | rd (body : Act)
deriving DecidableEq, Repr

/-- Modelled from the spec: run a callback body against the transaction open
on this chain.  In read mode writes fail with NotWritable and a nested
read-write cover fails immediately with NotWritable; in read-write mode a
nested read-write cover reuses the open transaction (no nested commit), and a
nested read cover likewise reuses it. -/
def runAct : Act → Mode → Store → Store × Option Err
  | .set k v ttl, m, db =>
    match m with
    | .read => (db, some .notWritable)
    | .readWrite => (db.set k v ttl, none)
  | .del k, m, db =>
    match m with
    | .read => (db, some .notWritable)
    | .readWrite => db.delete k
  | .get k, _, db =>
    (db, match db.get k with
         | .ok _ => none
         | .error e => some e)
  | .ret e, _, db => (db, some e)
  | .seq a b, m, db =>
    match runAct a m db with
    | (db1, none) => runAct b m db1
    | r => r
  | .rw body, m, db =>
    match m with
    | .read => (db, some .notWritable)
    | .readWrite => runAct body .readWrite db
  | .rd body, m, db => runAct body m db

/-- Modelled from the spec: the outermost `RWCoverTx` on a chain.  Before a
successful `InitBuntDB` it fails with NotInitialized without running the
callback; otherwise it opens the chain's read-write transaction, runs the
body, commits exactly once on a nil return (subject to the commit-time
persistence fault) and rolls back, discarding every write, on any error
return, which it passes through unchanged. -/
def RWCoverTx (prog : Act) (st : DBState) : DBState × Option Err :=
  if st.initialized then
    match runAct prog .readWrite st.db with
    | (db1, none) =>
      if st.commitOk then ({ st with db := db1 }, none)
      else (st, some .persistFail)
    | (_, some e) => (st, some e)
  else (st, some .notInitialized)

/-- Modelled from the spec: the outermost `RCoverTx` on a chain.  Before a
successful `InitBuntDB` it fails with NotInitialized without running the
callback; otherwise it opens a read-only transaction, runs the body and
discards the transaction (read-only transactions never commit data). -/
def RCoverTx (prog : Act) (st : DBState) : DBState × Option Err :=
  if st.initialized then (st, (runAct prog .read st.db).2)
  else (st, some .notInitialized)

/-- Modelled from the spec: `InitBuntDB` opens the engine, failing with
AlreadyInitialized on a second call. -/
def InitBuntDB (st : DBState) : DBState × Option Err :=
  if st.initialized then (st, some .alreadyInitialized)
  else ({ st with initialized := true }, none)

/-- Modelled from the spec: `GetClient` returns the engine handle, or
NotInitialized before a successful `InitBuntDB`. -/
def GetClient (st : DBState) : Except Err Store :=
  if st.initialized then .ok st.db else .error .notInitialized

/-- Wrap a callback body in `n` nested `RWCoverTx` calls on the same chain. -/
def nestRW : Nat → Act → Act
  | 0, p => p
  | n + 1, p => .rw (nestRW n p)

/-- One identifier segment of a composed key: a string rendered verbatim, an
integer (any width and signedness) rendered in decimal, or a boolean rendered
as true/false. -/
inductive KeySeg where
  | s (v : String)
  | i (v : Int)
  | b (v : Bool)
deriving DecidableEq, Repr

/-- Natural textual rendering of one key segment. -/
def KeySeg.render : KeySeg → String
  | .s v => v
  | .i v => toString v
  | .b v => if v then "true" else "false"

/-- Modelled from the spec: `NamedKey` builds the colon-joined key string out
of the type tag and the rendered identifier segments (the `NamedKey` source is
not among the provided files, only its test). -/
def NamedKey : String → List KeySeg → String
  | name, [] => name
  | name, k :: rest => NamedKey (name ++ ":" ++ k.render) rest

/-- The spec's independent description of the key format: the colon-joined
list of the tag and the rendered segments. -/
def joinColon : List String → String
  | [] => ""
  | [x] => x
  | x :: rest => x ++ ":" ++ joinColon rest

theorem joinColon_glue (a b : String) (l : List String) :
    joinColon ((a ++ ":" ++ b) :: l) = a ++ ":" ++ joinColon (b :: l) := by
  cases l with
  | nil => simp [joinColon, String.append_assoc]
  | cons c l' => simp [joinColon, String.append_assoc]

theorem namedKey_eq_joinColon (l : List KeySeg) (name : String) :
    NamedKey name l = joinColon (name :: l.map KeySeg.render) := by
  induction l generalizing name with
  | nil => rfl
  | cons k rest ih =>
      rw [NamedKey, ih (name ++ ":" ++ k.render)]
      simp only [List.map_cons]
      rw [joinColon_glue]
      rfl

theorem namedKey_prefix (l : List KeySeg) (name : String) :
    ∃ s, NamedKey name l = name ++ s := by
  induction l generalizing name with
  | nil => exact ⟨"", (String.append_empty name).symm⟩
  | cons k rest ih =>
      obtain ⟨s, hs⟩ := ih (name ++ ":" ++ k.render)
      refine ⟨":" ++ k.render ++ s, ?_⟩
      rw [NamedKey, hs, String.append_assoc, String.append_assoc, String.append_assoc]

theorem namedKey_tag_ne (t1 t2 : String) (l1 l2 : List KeySeg)
    (pre : List Char) (c1 c2 : Char) (r1 r2 : List Char)
    (h1 : t1.data = pre ++ c1 :: r1) (h2 : t2.data = pre ++ c2 :: r2)
    (hc : c1 ≠ c2) : NamedKey t1 l1 ≠ NamedKey t2 l2 := by
  obtain ⟨s1, hs1⟩ := namedKey_prefix l1 t1
  obtain ⟨s2, hs2⟩ := namedKey_prefix l2 t2
  intro h
  rw [hs1, hs2] at h
  have hd : (t1 ++ s1).data = (t2 ++ s2).data := by rw [h]
  rw [String.data_append, String.data_append, h1, h2,
    List.append_assoc, List.append_assoc] at hd
  have hcons := List.append_cancel_left hd
  exact hc (by injection hcons)

/-- Modelled from the spec: each entity family has exactly one type tag (the
concrete tag strings of the bilibili key set are not among the provided
files; distinct tags per family is the spec's invariant). -/
def UserInfoKey (mid : Int) : String := NamedKey "BilibiliUserInfo" [.i mid]

def UserStatKey (mid : Int) : String := NamedKey "BilibiliUserStat" [.i mid]

def CurrentLiveKey (mid : Int) : String := NamedKey "BilibiliCurrentLive" [.i mid]

def CurrentNewsKey (mid : Int) : String := NamedKey "BilibiliCurrentNews" [.i mid]

def DynamicIdKey (dynamic : Int) : String := NamedKey "BilibiliDynamicId" [.i dynamic]

def NotLiveKey (uid : Int) : String := NamedKey "BilibiliNotLive" [.i uid]

def UidFirstTimestamp (uid : Int) : String := NamedKey "BilibiliUidFirstTimestamp" [.i uid]

def BilibiliUserCookieInfoKey (username : String) : String :=
  NamedKey "BilibiliUserCookieInfo" [.s username]

theorem userInfoKey_ne_currentLiveKey (m1 m2 : Int) :
    UserInfoKey m1 ≠ CurrentLiveKey m2 :=
  namedKey_tag_ne _ _ _ _ "Bilibili".data 'U' 'C' "serInfo".data "urrentLive".data
    rfl rfl (by decide)

theorem currentLiveKey_ne_currentNewsKey (m1 m2 : Int) :
    CurrentLiveKey m1 ≠ CurrentNewsKey m2 :=
  namedKey_tag_ne _ _ _ _ "BilibiliCurrent".data 'L' 'N' "ive".data "ews".data
    rfl rfl (by decide)

/-- `time.Hour` in nanoseconds. -/
def timeHour : Int := 3600 * 1000000000

/-- `time.Second` in nanoseconds. -/
def timeSecond : Int := 1000000000

/-- `ExpireOption(d)`: nil options when the duration is zero, otherwise
set-options carrying the TTL. -/
def ExpireOption (d : Int) : Option Int :=
  if d = 0 then none else some d

/-- The coordinator's read-write cover specialized to a shallow callback (the
repository callbacks below contain no nested cover calls, so the top-level
commit/rollback discipline of `RWCoverTx` is all that is exercised):
NotInitialized before init, commit on a nil return subject to the commit-time
persistence fault, rollback discarding the callback's writes on an error
return, which passes through unchanged. -/
def RWCoverFn (fn : Store → Store × Option Err) (st : DBState) : DBState × Option Err :=
  if st.initialized then
    match fn st.db with
    | (db1, none) =>
      if st.commitOk then ({ st with db := db1 }, none)
      else (st, some .persistFail)
    | (_, some e) => (st, some e)
  else (st, some .notInitialized)

/-- `UserInfo`: the producer's display attributes. -/
structure UserInfo where
  mid : Int
  name : String
deriving DecidableEq, Repr

/-- Modelled from the spec: values are stored as a serialized structured
document; any injective field-tagged rendering represents it. -/
def UserInfo.marshal (u : UserInfo) : String :=
  "mid=" ++ toString u.mid ++ ",name=" ++ u.name

/-- `UserStat`: rolling statistics of a producer. -/
structure UserStat where
  mid : Int
  follower : Int
deriving DecidableEq, Repr

def UserStat.marshal (u : UserStat) : String :=
  "mid=" ++ toString u.mid ++ ",follower=" ++ toString u.follower

/-- `LiveInfo`: the live-session record with its embedded `UserInfo`. -/
structure LiveInfo where
  userInfo : UserInfo
  liveTitle : String
  living : Bool
deriving DecidableEq, Repr

/-- The embedded `UserInfo.Mid` promoted field. -/
def LiveInfo.mid (l : LiveInfo) : Int := l.userInfo.mid

def LiveInfo.marshal (l : LiveInfo) : String :=
  l.userInfo.marshal ++ ",title=" ++ l.liveTitle ++
    ",living=" ++ (if l.living then "true" else "false")

/-- `NewsInfo`: the post record with its embedded `UserInfo`. -/
structure NewsInfo where
  userInfo : UserInfo
  lastDynamicId : Int
deriving DecidableEq, Repr

def NewsInfo.mid (n : NewsInfo) : Int := n.userInfo.mid

def NewsInfo.marshal (n : NewsInfo) : String :=
  n.userInfo.marshal ++ ",lastDynamicId=" ++ toString n.lastDynamicId

/-- One credential cookie with its expiry (unix seconds). -/
structure Cookie where
  name : String
  value : String
  expires : Int
deriving DecidableEq, Repr

/-- `LoginResponse_Data_CookieInfo`: the credential bundle. -/
structure CookieInfo where
  cookies : List Cookie
deriving DecidableEq, Repr

def CookieInfo.marshal (ci : CookieInfo) : String :=
  (ci.cookies.map (fun c => c.name ++ "=" ++ c.value ++ ";" ++ toString c.expires)).foldl
    (fun a b => a ++ "&" ++ b) "cookies:"

/-- `AddUserInfo` (stateManager.go:21): nil guard, then one read-write cover
writing the user-info record. -/
def AddUserInfo (userInfo : Option UserInfo) (st : DBState) : DBState × Option Err :=
  match userInfo with
  | none => (st, some (.generic "nil UserInfo"))
  | some u =>
    RWCoverFn (fun db => (db.set (UserInfoKey u.mid) u.marshal none, none)) st

/-- `AddUserStat` (stateManager.go:41): nil guard, then one read-write cover
writing the user-stat record with the caller-supplied set options. -/
def AddUserStat (userStat : Option UserStat) (opt : Option Int) (st : DBState) :
    DBState × Option Err :=
  match userStat with
  | none => (st, some (.generic "nil UserStat"))
  | some u =>
    RWCoverFn (fun db => (db.set (UserStatKey u.mid) u.marshal opt, none)) st

/-- `AddLiveInfo` (stateManager.go:60): nil guard, then one read-write cover
writing the embedded user-info record (no TTL) and the live-session record
(7-day TTL). -/
def AddLiveInfo (liveInfo : Option LiveInfo) (st : DBState) : DBState × Option Err :=
  match liveInfo with
  | none => (st, some (.generic "nil LiveInfo"))
  | some l =>
    RWCoverFn (fun db =>
      ((db.set (UserInfoKey l.mid) l.userInfo.marshal none).set
        (CurrentLiveKey l.mid) l.marshal (ExpireOption (timeHour * 24 * 7)), none)) st

/-- `AddNewsInfo` (stateManager.go:84): nil guard, then one read-write cover
writing the embedded user-info record and the news record (no TTL). -/
def AddNewsInfo (newsInfo : Option NewsInfo) (st : DBState) : DBState × Option Err :=
  match newsInfo with
  | none => (st, some (.generic "nil NewsInfo"))
  | some n =>
    RWCoverFn (fun db =>
      ((db.set (UserInfoKey n.mid) n.userInfo.marshal none).set
        (CurrentNewsKey n.mid) n.marshal none, none)) st

/-- `DeleteNewsInfo` (stateManager.go:98): one read-write cover returning
`tx.Delete`'s error for the news key. -/
def DeleteNewsInfo (mid : Int) (st : DBState) : DBState × Option Err :=
  RWCoverFn (fun db => db.delete (CurrentNewsKey mid)) st

/-- `DeleteLiveInfo` (stateManager.go:105): one read-write cover returning
`tx.Delete`'s error for the live key. -/
def DeleteLiveInfo (mid : Int) (st : DBState) : DBState × Option Err :=
  RWCoverFn (fun db => db.delete (CurrentLiveKey mid)) st

/-- The callback of `DeleteNewsAndLiveInfo`: delete the live key, tolerating
only NotFound from that sub-delete, then delete the news key and return that
delete's error as-is. -/
def deleteNewsAndLiveFn (mid : Int) (db : Store) : Store × Option Err :=
  match db.delete (CurrentLiveKey mid) with
  | (db1, none) => db1.delete (CurrentNewsKey mid)
  | (db1, some Err.notFound) => db1.delete (CurrentNewsKey mid)
  | (db1, some e) => (db1, some e)

/-- `DeleteNewsAndLiveInfo` (stateManager.go:112): one read-write cover
running `deleteNewsAndLiveFn`. -/
def DeleteNewsAndLiveInfo (mid : Int) (st : DBState) : DBState × Option Err :=
  RWCoverFn (deleteNewsAndLiveFn mid) st

/-- The error filter of `ClearByMid` (stateManager.go:136): the first
collected error that is non-nil and not NotFound, else nil. -/
def firstRealErr : List (Option Err) → Option Err
  | [] => none
  | none :: rest => firstRealErr rest
  | some e :: rest => if e = Err.notFound then firstRealErr rest else some e

/-- `ClearByMid` (stateManager.go:123): delete all five per-producer keys,
collect every sub-delete's error, and surface only the first non-NotFound
error. -/
def ClearByMid (mid : Int) (st : DBState) : DBState × Option Err :=
  RWCoverFn (fun db =>
    let r1 := db.delete (CurrentLiveKey mid)
    let r2 := r1.1.delete (CurrentNewsKey mid)
    let r3 := r2.1.delete (UidFirstTimestamp mid)
    let r4 := r3.1.delete (UserInfoKey mid)
    let r5 := r4.1.delete (NotLiveKey mid)
    (r5.1, firstRealErr [r1.2, r2.2, r3.2, r4.2, r5.2])) st

/-- `CheckDynamicId` (stateManager.go:154): inside a read cover, probe the
dynamic-id key; present means false, NotFound means true, and any other read
error is returned from the callback, after which the outer nil check forces
the result to false. -/
def CheckDynamicId (dynamic : Int) (st : DBState) : Bool :=
  let run : Bool × Option Err :=
    if st.initialized then
      match st.db.get (DynamicIdKey dynamic) with
      | .ok _ => (false, none)
      | .error Err.notFound => (true, none)
      | .error e => (false, some e)
    else (false, some .notInitialized)
  match run with
  | (r, none) => r
  | (_, some _) => false

/-- Accumulate a decimal digit string into a natural number. -/
def digitsToNat : List Char → Nat → Option Nat
  | [], acc => some acc
  | c :: rest, acc =>
    if c.isDigit then digitsToNat rest (acc * 10 + (c.toNat - 48)) else none

/-- Parse the decimal textual form of an integer (counters and timestamps
are stored in this form). -/
def parseDecInt (s : String) : Option Int :=
  match s.data with
  | [] => none
  | '-' :: rest =>
    match rest with
    | [] => none
    | l => (digitsToNat l 0).map (fun n => -(n : Int))
  | l => (digitsToNat l 0).map (fun n => (n : Int))

/-- Modelled from the spec: `SeqNext` (the SequenceCounter increment, whose
source is not among the provided files) atomically bumps the per-key decimal
counter inside a read-write cover and returns the new value, starting from 1
when the key is absent; engine faults and commit-time persistence failures
propagate as errors. -/
def SeqNext (key : String) (st : DBState) : DBState × Except Err Int :=
  if st.initialized then
    match st.db.get key with
    | .error Err.notFound =>
      if st.commitOk then
        ({ st with db := st.db.set key (toString (1 : Int)) none }, .ok 1)
      else (st, .error .persistFail)
    | .error e => (st, .error e)
    | .ok s =>
      match parseDecInt s with
      | some n =>
        if st.commitOk then
          ({ st with db := st.db.set key (toString (n + 1)) none }, .ok (n + 1))
        else (st, .error .persistFail)
      | none => (st, .error (.generic "parse"))
  else (st, .error .notInitialized)

/-- `IncNotLiveCount` (stateManager.go:190): return `SeqNext`'s value, or 0
in place of any error. -/
def IncNotLiveCount (uid : Int) (st : DBState) : DBState × Int :=
  match SeqNext (NotLiveKey uid) st with
  | (st1, .ok v) => (st1, v)
  | (st1, .error _) => (st1, 0)

/-- `SetCookieInfo` (stateManager.go:248): nil guard, then one read-write
cover serializing the bundle and writing it under the per-account cookie key,
with a TTL derived from the first cookie's expiry when that is non-zero
(`now` is the `time.Now().Unix()` reading, passed explicitly). -/
def SetCookieInfo (username : String) (cookieInfo : Option CookieInfo) (now : Int)
    (st : DBState) : DBState × Option Err :=
  match cookieInfo with
  | none => (st, some (.generic "<nil> cookieInfo"))
  | some ci =>
    RWCoverFn (fun db =>
      let expire : Int :=
        match ci.cookies with
        | [] => 0
        | c :: _ => c.expires
      if expire ≠ 0 then
        (db.set (BilibiliUserCookieInfoKey username) ci.marshal
          (ExpireOption ((expire - now) * timeSecond)), none)
      else
        (db.set (BilibiliUserCookieInfoKey username) ci.marshal none, none)) st

/-- A freshly initialized engine over an empty store, commits succeeding. -/
def initState : DBState := ⟨true, true, ⟨[], []⟩⟩

/-- The engine before `InitBuntDB`. -/
def uninitState : DBState := ⟨false, true, ⟨[], []⟩⟩

/-- A sample live-session record used to evaluate the repository operations. -/
def sampleLive : LiveInfo := ⟨⟨42, "someone"⟩, "a title", true⟩

/-- An initialized state already holding a news record for producer 8. -/
def newsState : DBState :=
  ⟨true, true, ⟨[(CurrentNewsKey 8, ⟨"news", none⟩)], []⟩⟩

/-! Basic store lemmas. -/

theorem lookupL_delL_self (l : List (String × Entry)) (k : String) :
    lookupL (delL l k) k = none := by
  induction l with
  | nil => rfl
  | cons p rest ih =>
      obtain ⟨k', e⟩ := p
      by_cases h : k' = k
      · simp [delL, h, ih]
      · simp [delL, lookupL, h, ih]

theorem lookupL_delL_of_ne (l : List (String × Entry)) (k k' : String) (h : k' ≠ k) :
    lookupL (delL l k) k' = lookupL l k' := by
  induction l with
  | nil => rfl
  | cons p rest ih =>
      obtain ⟨k0, e⟩ := p
      by_cases h0 : k0 = k
      · have hkk' : k ≠ k' := Ne.symm h
        simp [delL, h0, lookupL, hkk', ih]
      · simp [delL, lookupL, h0, ih]

theorem lookupL_delL_none (l : List (String × Entry)) (k k' : String)
    (h : lookupL l k' = none) : lookupL (delL l k) k' = none := by
  induction l with
  | nil => rfl
  | cons p rest ih =>
      obtain ⟨k0, e⟩ := p
      by_cases h0 : k0 = k'
      · simp [lookupL, h0] at h
      · simp [lookupL, h0] at h
        by_cases h1 : k0 = k
        · simp [delL, h1, ih h]
        · simp [delL, h1, lookupL, h0, ih h]

theorem lookup_set_self (db : Store) (k v : String) (o : Option Int) :
    (db.set k v o).lookup k = some ⟨v, o⟩ := by
  simp [Store.set, Store.lookup, lookupL]

theorem lookup_set_of_ne (db : Store) (k v : String) (o : Option Int) (k' : String)
    (h : k' ≠ k) : (db.set k v o).lookup k' = db.lookup k' := by
  have hne : k ≠ k' := fun hk => h hk.symm
  simp [Store.set, Store.lookup, lookupL, hne, lookupL_delL_of_ne db.data k k' h]

theorem delete_of_absent (db : Store) (k : String) (h : db.lookup k = none) :
    db.delete k = (db, some Err.notFound) := by
  simp [Store.delete, h]

theorem delete_fst_lookup_self (db : Store) (k : String) :
    (db.delete k).1.lookup k = none := by
  unfold Store.delete
  cases h : db.lookup k with
  | none => simp [h]
  | some e => simp [h, Store.lookup, lookupL_delL_self]

theorem delete_fst_lookup_none (db : Store) (k k' : String)
    (h : db.lookup k' = none) : (db.delete k).1.lookup k' = none := by
  unfold Store.delete
  cases h0 : db.lookup k with
  | none => simpa [h0] using h
  | some e => simpa [h0, Store.lookup] using lookupL_delL_none db.data k k' h

theorem delete_fst_lookup_of_ne (db : Store) (k k' : String) (h : k' ≠ k) :
    (db.delete k).1.lookup k' = db.lookup k' := by
  unfold Store.delete
  cases h0 : db.lookup k with
  | none => simp [h0]
  | some e => simpa [h0, Store.lookup] using lookupL_delL_of_ne db.data k k' h

theorem delete_fst_faulty (db : Store) (k : String) :
    (db.delete k).1.faulty = db.faulty := by
  unfold Store.delete
  cases h0 : db.lookup k with
  | none => simp [h0]
  | some e => simp [h0]

/-- In read mode no callback body ever changes the store: writes and nested
read-write covers fail before touching it. -/
theorem runAct_read_preserves (a : Act) (db : Store) :
    (runAct a Mode.read db).1 = db := by
  induction a generalizing db with
  | set k v ttl => rfl
  | del k => rfl
  | get k => rfl
  | ret e => rfl
  | seq x y ihx ihy =>
      unfold runAct
      cases h : runAct x Mode.read db with
      | mk db1 r =>
        cases r with
        | none =>
            have hdb : db1 = db := by
              have := ihx db
              rw [h] at this
              exact this
            simpa [hdb] using ihy db
        | some e =>
            have := ihx db
            rw [h] at this
            simpa using this
  | rw body ih => rfl
  | rd body ih => exact ih db

/-- Peeling one nesting level off a read-write chain changes nothing: the
nested cover reuses the open transaction. -/
theorem runAct_nestRW (n : Nat) (p : Act) (db : Store) :
    runAct (nestRW n p) Mode.readWrite db = runAct p Mode.readWrite db := by
  induction n with
  | zero => rfl
  | succ m ih => simpa [nestRW, runAct] using ih

theorem delete_snd_cases (db : Store) (k : String) :
    (db.delete k).2 = none ∨ (db.delete k).2 = some Err.notFound := by
  unfold Store.delete
  cases h : db.lookup k <;> simp [h]

theorem delete_snd_of_present (db : Store) (k : String) (e : Entry)
    (h : db.lookup k = some e) : (db.delete k).2 = none := by
  unfold Store.delete
  simp [h]

theorem expire_7d : ExpireOption (timeHour * 24 * 7) = some (timeHour * 24 * 7) := by
  decide

theorem int_one_toString : toString (1 : Int) = "1" := rfl

theorem firstRealErr_none (l : List (Option Err))
    (h : ∀ x ∈ l, x = none ∨ x = some Err.notFound) : firstRealErr l = none := by
  induction l with
  | nil => rfl
  | cons a rest ih =>
      have hrest := ih (fun x hx => h x (List.mem_cons_of_mem a hx))
      rcases h a (List.mem_cons_self a rest) with ha | ha <;> subst ha <;>
        simp [firstRealErr, hrest]

/-- Since `tx.Delete` fails only with NotFound, the tolerated-error match of
`deleteNewsAndLiveFn` always proceeds to the news delete. -/
theorem deleteNewsAndLiveFn_eq (mid : Int) (db : Store) :
    deleteNewsAndLiveFn mid db =
      (db.delete (CurrentLiveKey mid)).1.delete (CurrentNewsKey mid) := by
  unfold deleteNewsAndLiveFn
  cases hd : db.delete (CurrentLiveKey mid) with
  | mk d r =>
    cases r with
    | none => rfl
    | some e =>
      have hr := delete_snd_cases db (CurrentLiveKey mid)
      rw [hd] at hr
      have he : e = Err.notFound := by
        rcases hr with h | h
        · exact absurd h (by simp)
        · injection h with h'
      subst he
      rfl

/-- On a healthy initialized engine, `ClearByMid` reduces to committing the
five-fold delete with a nil error: every sub-delete's error is nil or
NotFound, and the error filter drops NotFound. -/
theorem clearByMid_red (mid : Int) (st : DBState)
    (h1 : st.initialized = true) (h2 : st.commitOk = true) :
    ClearByMid mid st =
      ({ st with db := (((((st.db.delete (CurrentLiveKey mid)).1.delete (CurrentNewsKey mid)).1.delete (UidFirstTimestamp mid)).1.delete (UserInfoKey mid)).1.delete (NotLiveKey mid)).1 }, none) := by
  have hfr : firstRealErr [(st.db.delete (CurrentLiveKey mid)).2,
      ((st.db.delete (CurrentLiveKey mid)).1.delete (CurrentNewsKey mid)).2,
      (((st.db.delete (CurrentLiveKey mid)).1.delete (CurrentNewsKey mid)).1.delete (UidFirstTimestamp mid)).2,
      ((((st.db.delete (CurrentLiveKey mid)).1.delete (CurrentNewsKey mid)).1.delete (UidFirstTimestamp mid)).1.delete (UserInfoKey mid)).2,
      (((((st.db.delete (CurrentLiveKey mid)).1.delete (CurrentNewsKey mid)).1.delete (UidFirstTimestamp mid)).1.delete (UserInfoKey mid)).1.delete (NotLiveKey mid)).2] = none := by
    apply firstRealErr_none
    intro x hx
    simp only [List.mem_cons, List.not_mem_nil, or_false] at hx
    rcases hx with h | h | h | h | h <;> subst h <;> exact delete_snd_cases _ _
  simp [ClearByMid, RWCoverFn, h1, h2, hfr]

/-! Claim theorems. -/

/-- Claim C1: on an initialized engine, a chain of nested `RWCoverTx` calls is
equivalent to the single outermost call — only the outermost call commits or
rolls back, and it does so exactly once — and whenever the chain's execution
returns the rollback sentinel `ErrRollback` from any nesting depth, the
outermost `RWCoverTx` leaves the whole state unchanged (every write at every
depth discarded) and returns exactly that sentinel, unmasked. -/
theorem rwCoverTx_nested_commit_once_rollback (n : Nat) (p : Act) (st : DBState)
    (h : st.initialized = true) :
    RWCoverTx (nestRW n p) st = RWCoverTx p st ∧
    (∀ db1, runAct p Mode.readWrite st.db = (db1, some Err.rollback) →
      RWCoverTx (nestRW n p) st = (st, some Err.rollback)) := by
  constructor
  · simp [RWCoverTx, runAct_nestRW]
  · intro db1 hrun
    simp [RWCoverTx, runAct_nestRW, h, hrun]

/-- Claim C1 witness: a two-level nested chain that writes a key and then
returns the rollback sentinel leaves the initialized empty state unchanged
and yields exactly `ErrRollback`. -/
theorem rwCoverTx_nested_commit_once_rollback_witness :
    RWCoverTx (nestRW 2 (Act.seq (Act.set "a" "b" none) (Act.ret Err.rollback)))
      initState = (initState, some Err.rollback) :=
  (rwCoverTx_nested_commit_once_rollback 2
      (Act.seq (Act.set "a" "b" none) (Act.ret Err.rollback)) initState rfl).2
    ⟨[("a", ⟨"b", none⟩)], []⟩ (by decide)

/-- Claim C2: on an initialized engine with a read-only transaction open on
the chain, a nested `RWCoverTx` call fails immediately with the engine's
NotWritable error, `tx.Set` on the read handle likewise fails with
NotWritable, no callback body running in read mode ever changes the store,
and a key absent before the read cover is still absent afterwards. -/
theorem rCoverTx_write_notWritable (p : Act) (k v : String) (o : Option Int)
    (st : DBState) (h : st.initialized = true) :
    RCoverTx (Act.rw p) st = (st, some Err.notWritable) ∧
    RCoverTx (Act.set k v o) st = (st, some Err.notWritable) ∧
    (∀ q : Act, (runAct q Mode.read st.db).1 = st.db) ∧
    (st.db.lookup k = none →
      ((RCoverTx (Act.set k v o) st).1).db.lookup k = none) := by
  refine ⟨?_, ?_, ?_, ?_⟩
  · simp [RCoverTx, h, runAct]
  · simp [RCoverTx, h, runAct]
  · intro q
    exact runAct_read_preserves q st.db
  · intro habs
    simpa [RCoverTx, h] using habs

/-- Claim C2 witness: inside a read cover on the initialized empty state, a
nested read-write cover that would write key a fails with NotWritable. -/
theorem rCoverTx_write_notWritable_witness :
    RCoverTx (Act.rw (Act.set "a" "b" none)) initState =
      (initState, some Err.notWritable) :=
  (rCoverTx_write_notWritable (Act.set "a" "b" none) "a" "b" none initState rfl).1

/-- Claim C8: before a successful `InitBuntDB`, `GetClient` fails with
NotInitialized and both covers fail with NotInitialized no matter what
callback they are given (so the callback is never run); after `InitBuntDB`
succeeds, `GetClient` returns the engine handle and both covers run their
callback (a callback returning `e` makes the cover return `e`). -/
theorem engine_init_guard (p : Act) (st : DBState) (h : st.initialized = false) :
    GetClient st = Except.error Err.notInitialized ∧
    RCoverTx p st = (st, some Err.notInitialized) ∧
    RWCoverTx p st = (st, some Err.notInitialized) ∧
    GetClient (InitBuntDB st).1 = Except.ok st.db ∧
    (∀ e : Err, RCoverTx (Act.ret e) (InitBuntDB st).1 = ((InitBuntDB st).1, some e)) ∧
    (∀ e : Err, RWCoverTx (Act.ret e) (InitBuntDB st).1 = ((InitBuntDB st).1, some e)) := by
  refine ⟨?_, ?_, ?_, ?_, ?_, ?_⟩ <;>
    simp [GetClient, RCoverTx, RWCoverTx, InitBuntDB, h, runAct]

/-- Claim C8 witness: on the uninitialized state, `RWCoverTx` fails with
NotInitialized even for a callback that would immediately report success. -/
theorem engine_init_guard_witness :
    RWCoverTx (Act.set "a" "b" none) uninitState =
      (uninitState, some Err.notInitialized) :=
  (engine_init_guard (Act.set "a" "b" none) uninitState rfl).2.2.1

/-- Claim C7: `NamedKey` returns the colon-joined string of the tag followed
by each identifier segment in its natural textual rendering — integers in
decimal, booleans as true/false, strings verbatim — and in particular
reproduces the two concrete vectors of the key-format contract. -/
theorem namedKey_colon_joined :
    (∀ (name : String) (keys : List KeySeg),
      NamedKey name keys = joinColon (name :: keys.map KeySeg.render)) ∧
    NamedKey "t1" [.s "s1", .s "s2", .i 3, .i 4] = "t1:s1:s2:3:4" ∧
    NamedKey "t2" [.s "s3", .i 5, .b false] = "t2:s3:5:false" := by
  refine ⟨fun name keys => namedKey_eq_joinColon keys name, ?_, ?_⟩ <;> decide

/-- Claim C4: `AddLiveInfo` on a non-nil record writes the embedded user-info
record (no TTL) and the live-session record (7-day TTL) inside one read-write
transaction: when it returns nil both records are visible, and when it
returns any error the whole state is unchanged, so neither write is
visible. -/
theorem addLiveInfo_atomic (l : LiveInfo) (st : DBState) :
    ((AddLiveInfo (some l) st).2 = none →
      (AddLiveInfo (some l) st).1.db.lookup (CurrentLiveKey l.mid) =
        some ⟨l.marshal, some (timeHour * 24 * 7)⟩ ∧
      (AddLiveInfo (some l) st).1.db.lookup (UserInfoKey l.mid) =
        some ⟨l.userInfo.marshal, none⟩) ∧
    (∀ e, (AddLiveInfo (some l) st).2 = some e → (AddLiveInfo (some l) st).1 = st) := by
  by_cases hi : st.initialized = true
  · by_cases hc : st.commitOk = true
    · have hred : AddLiveInfo (some l) st =
          ({ st with db := Store.set (st.db.set (UserInfoKey l.mid) l.userInfo.marshal none) (CurrentLiveKey l.mid) l.marshal (ExpireOption (timeHour * 24 * 7)) }, none) := by
        simp [AddLiveInfo, RWCoverFn, hi, hc]
      rw [hred]
      refine ⟨fun _ => ⟨?_, ?_⟩, fun e he => by simp at he⟩
      · rw [expire_7d]
        exact lookup_set_self _ _ _ _
      · rw [lookup_set_of_ne _ _ _ _ _ (userInfoKey_ne_currentLiveKey l.mid l.mid)]
        exact lookup_set_self _ _ _ _
    · have hred : AddLiveInfo (some l) st = (st, some Err.persistFail) := by
        simp [AddLiveInfo, RWCoverFn, hi, hc]
      rw [hred]
      exact ⟨fun h => by simp at h, fun e _ => rfl⟩
  · have hred : AddLiveInfo (some l) st = (st, some Err.notInitialized) := by
      simp [AddLiveInfo, RWCoverFn, hi]
    rw [hred]
    exact ⟨fun h => by simp at h, fun e _ => rfl⟩

/-- Claim C4 witness: adding the sample live record to the initialized empty
state makes the live-session record visible with its 7-day TTL. -/
theorem addLiveInfo_atomic_witness :
    (AddLiveInfo (some sampleLive) initState).1.db.lookup (CurrentLiveKey sampleLive.mid) =
      some ⟨sampleLive.marshal, some (timeHour * 24 * 7)⟩ :=
  ((addLiveInfo_atomic sampleLive initState).1 (by decide)).1

/-- Claim C5: on an initialized engine, `CheckDynamicId` returns true exactly
when the read of the dynamic-id key fails with NotFound; it returns false
when the key is present, and on any non-NotFound read error it also returns
false instead of propagating the error. -/
theorem checkDynamicId_seen_semantics (d : Int) (st : DBState)
    (h : st.initialized = true) :
    (CheckDynamicId d st = true ↔
      st.db.get (DynamicIdKey d) = Except.error Err.notFound) ∧
    (∀ v, st.db.get (DynamicIdKey d) = Except.ok v → CheckDynamicId d st = false) ∧
    (∀ e, e ≠ Err.notFound → st.db.get (DynamicIdKey d) = Except.error e →
      CheckDynamicId d st = false) := by
  have hiff : CheckDynamicId d st = true ↔
      st.db.get (DynamicIdKey d) = Except.error Err.notFound := by
    cases hg : st.db.get (DynamicIdKey d) with
    | ok v => simp [CheckDynamicId, h, hg]
    | error e => cases e <;> simp [CheckDynamicId, h, hg]
  refine ⟨hiff, ?_, ?_⟩
  · intro v hv
    cases hB : CheckDynamicId d st with
    | false => rfl
    | true =>
        have hnf := hiff.mp hB
        rw [hv] at hnf
        exact absurd hnf (by simp)
  · intro e hne he
    cases hB : CheckDynamicId d st with
    | false => rfl
    | true =>
        have hnf := hiff.mp hB
        rw [he] at hnf
        injection hnf with h'
        exact absurd h' hne

/-- Claim C5 witness: a dynamic id never marked is reported unseen (true) on
the initialized empty state. -/
theorem checkDynamicId_seen_semantics_witness :
    CheckDynamicId 5 initState = true :=
  (checkDynamicId_seen_semantics 5 initState rfl).1.mpr rfl

/-- Claim C6: `IncNotLiveCount` returns exactly the new counter value that
the underlying sequence operation produced, and returns 0 instead of
propagating whenever that operation returns any error (in particular before
initialization); on a healthy engine with no stored counter the first call
yields 1 and stores "1". -/
theorem incNotLiveCount_semantics (uid : Int) (st : DBState) :
    (∀ v, (SeqNext (NotLiveKey uid) st).2 = Except.ok v →
      IncNotLiveCount uid st = ((SeqNext (NotLiveKey uid) st).1, v)) ∧
    (∀ e, (SeqNext (NotLiveKey uid) st).2 = Except.error e →
      (IncNotLiveCount uid st).2 = 0) ∧
    (st.initialized = true → st.commitOk = true →
      st.db.get (NotLiveKey uid) = Except.error Err.notFound →
      (IncNotLiveCount uid st).2 = 1 ∧
      (IncNotLiveCount uid st).1.db.lookup (NotLiveKey uid) = some ⟨"1", none⟩) ∧
    (st.initialized = false → (IncNotLiveCount uid st).2 = 0) := by
  refine ⟨?_, ?_, ?_, ?_⟩
  · intro v hv
    unfold IncNotLiveCount
    cases hs : SeqNext (NotLiveKey uid) st with
    | mk st1 r =>
      rw [hs] at hv
      cases r with
      | ok v0 =>
          injection hv with hv0
          simp [hv0]
      | error e0 => simp at hv
  · intro e he
    unfold IncNotLiveCount
    cases hs : SeqNext (NotLiveKey uid) st with
    | mk st1 r =>
      rw [hs] at he
      cases r with
      | ok v0 => simp at he
      | error e0 => rfl
  · intro h1 h2 hget
    have hseq : SeqNext (NotLiveKey uid) st =
        ({ st with db := st.db.set (NotLiveKey uid) (toString (1 : Int)) none },
          Except.ok 1) := by
      simp [SeqNext, h1, h2, hget]
    constructor
    · simp [IncNotLiveCount, hseq]
    · simp only [IncNotLiveCount, hseq]
      rw [int_one_toString]
      exact lookup_set_self _ _ _ _
  · intro h
    simp [IncNotLiveCount, SeqNext, h]

/-- Claim C6 witness: the first increment on the initialized empty state
returns 1. -/
theorem incNotLiveCount_semantics_witness :
    (IncNotLiveCount 9 initState).2 = 1 :=
  ((incNotLiveCount_semantics 9 initState).2.2.1 rfl rfl rfl).1

/-- Claim C9: every nil-pointer argument to the repository write operations
is rejected immediately with a non-nil error, before any transaction is
opened (the result does not depend on the engine state, initialized or not)
and without modifying any stored key (the state is returned unchanged). -/
theorem nil_argument_guards (st : DBState) (username : String) :
    AddUserInfo none st = (st, some (Err.generic "nil UserInfo")) ∧
    (∀ opt, AddUserStat none opt st = (st, some (Err.generic "nil UserStat"))) ∧
    AddLiveInfo none st = (st, some (Err.generic "nil LiveInfo")) ∧
    AddNewsInfo none st = (st, some (Err.generic "nil NewsInfo")) ∧
    (∀ now, SetCookieInfo username none now st =
      (st, some (Err.generic "<nil> cookieInfo"))) :=
  ⟨rfl, fun _ => rfl, rfl, rfl, fun _ => rfl⟩

/-- Claim C3 counterexample: `DeleteLiveInfo` for a producer whose live key
is already absent does not return nil — it surfaces buntdb's NotFound — so
the single-record deletes do not treat "key already absent" as success. -/
theorem deleteLiveInfo_absent_notFound :
    (DeleteLiveInfo 1 initState).2 = some Err.notFound ∧
      some Err.notFound ≠ (none : Option Err) :=
  ⟨rfl, by simp⟩

/-- Claim C3 amended: only `ClearByMid` treats an already-absent key as
success for every sub-delete it attempts, returning nil and removing all five
per-producer keys, and surfacing only a non-NotFound sub-delete error;
`DeleteNewsAndLiveInfo` tolerates NotFound from the live-key sub-delete only
— when the news key is absent it returns NotFound and discards everything,
and when the news key is present it returns nil with both keys removed —
while `DeleteLiveInfo` and `DeleteNewsInfo` surface NotFound when their key
is absent. -/
theorem deletion_absent_tolerance (mid : Int) (st : DBState)
    (h1 : st.initialized = true) (h2 : st.commitOk = true) :
    ((ClearByMid mid st).2 = none ∧
      (ClearByMid mid st).1.db.lookup (CurrentLiveKey mid) = none ∧
      (ClearByMid mid st).1.db.lookup (CurrentNewsKey mid) = none ∧
      (ClearByMid mid st).1.db.lookup (UidFirstTimestamp mid) = none ∧
      (ClearByMid mid st).1.db.lookup (UserInfoKey mid) = none ∧
      (ClearByMid mid st).1.db.lookup (NotLiveKey mid) = none) ∧
    ((st.db.lookup (CurrentNewsKey mid) = none →
        DeleteNewsAndLiveInfo mid st = (st, some Err.notFound)) ∧
      (st.db.lookup (CurrentNewsKey mid) ≠ none →
        (DeleteNewsAndLiveInfo mid st).2 = none ∧
        (DeleteNewsAndLiveInfo mid st).1.db.lookup (CurrentLiveKey mid) = none ∧
        (DeleteNewsAndLiveInfo mid st).1.db.lookup (CurrentNewsKey mid) = none)) ∧
    (st.db.lookup (CurrentLiveKey mid) = none →
      DeleteLiveInfo mid st = (st, some Err.notFound)) ∧
    (st.db.lookup (CurrentNewsKey mid) = none →
      DeleteNewsInfo mid st = (st, some Err.notFound)) := by
  refine ⟨?_, ⟨?_, ?_⟩, ?_, ?_⟩
  · rw [clearByMid_red mid st h1 h2]
    refine ⟨rfl, ?_, ?_, ?_, ?_, ?_⟩
    · exact delete_fst_lookup_none _ _ _ (delete_fst_lookup_none _ _ _
        (delete_fst_lookup_none _ _ _ (delete_fst_lookup_none _ _ _
          (delete_fst_lookup_self _ _))))
    · exact delete_fst_lookup_none _ _ _ (delete_fst_lookup_none _ _ _
        (delete_fst_lookup_none _ _ _ (delete_fst_lookup_self _ _)))
    · exact delete_fst_lookup_none _ _ _ (delete_fst_lookup_none _ _ _
        (delete_fst_lookup_self _ _))
    · exact delete_fst_lookup_none _ _ _ (delete_fst_lookup_self _ _)
    · exact delete_fst_lookup_self _ _
  · intro hn
    have hdb1 : (st.db.delete (CurrentLiveKey mid)).1.lookup (CurrentNewsKey mid) = none :=
      delete_fst_lookup_none _ _ _ hn
    have hfn : deleteNewsAndLiveFn mid st.db =
        ((st.db.delete (CurrentLiveKey mid)).1, some Err.notFound) := by
      rw [deleteNewsAndLiveFn_eq, delete_of_absent _ _ hdb1]
    simp [DeleteNewsAndLiveInfo, RWCoverFn, h1, hfn]
  · intro hn
    obtain ⟨en, hen⟩ := Option.ne_none_iff_exists'.mp hn
    have hlive_ne : CurrentLiveKey mid ≠ CurrentNewsKey mid :=
      currentLiveKey_ne_currentNewsKey mid mid
    have hdb1 : (st.db.delete (CurrentLiveKey mid)).1.lookup (CurrentNewsKey mid) = some en := by
      rw [delete_fst_lookup_of_ne _ _ _ (Ne.symm hlive_ne)]
      exact hen
    have hfn : deleteNewsAndLiveFn mid st.db =
        (((st.db.delete (CurrentLiveKey mid)).1.delete (CurrentNewsKey mid)).1, none) := by
      rw [deleteNewsAndLiveFn_eq]
      exact Prod.ext rfl (delete_snd_of_present _ _ _ hdb1)
    refine ⟨?_, ?_, ?_⟩
    · simp [DeleteNewsAndLiveInfo, RWCoverFn, h1, h2, hfn]
    · have hred : DeleteNewsAndLiveInfo mid st =
          ({ st with db := ((st.db.delete (CurrentLiveKey mid)).1.delete (CurrentNewsKey mid)).1 }, none) := by
        simp [DeleteNewsAndLiveInfo, RWCoverFn, h1, h2, hfn]
      rw [hred]
      show ((st.db.delete (CurrentLiveKey mid)).1.delete (CurrentNewsKey mid)).1.lookup (CurrentLiveKey mid) = none
      rw [delete_fst_lookup_of_ne _ _ _ hlive_ne]
      exact delete_fst_lookup_self _ _
    · have hred : DeleteNewsAndLiveInfo mid st =
          ({ st with db := ((st.db.delete (CurrentLiveKey mid)).1.delete (CurrentNewsKey mid)).1 }, none) := by
        simp [DeleteNewsAndLiveInfo, RWCoverFn, h1, h2, hfn]
      rw [hred]
      exact delete_fst_lookup_self _ _
  · intro hl
    simp [DeleteLiveInfo, RWCoverFn, h1, delete_of_absent _ _ hl]
  · intro hn
    simp [DeleteNewsInfo, RWCoverFn, h1, delete_of_absent _ _ hn]

/-- Claim C3 witness: clearing an untracked producer on the initialized empty
state succeeds with nil, and `DeleteNewsAndLiveInfo` returns nil on a state
holding only the news record (the absent live key is tolerated). -/
theorem deletion_absent_tolerance_witness :
    (ClearByMid 7 initState).2 = none ∧
      (DeleteNewsAndLiveInfo 8 newsState).2 = none :=
  ⟨(deletion_absent_tolerance 7 initState rfl rfl).1.1,
    ((deletion_absent_tolerance 8 newsState rfl rfl).2.1.2 (by decide)).1⟩

end DDBOT
